import Mathlib

/-!
Verification development for the edumanager repository.

The engineering core of the repository is the single schema migration
`supabase/migrations/20251225093753_0e10aa57-42ee-4439-8548-c9b822b1ec72.sql`:
four tables (courses, students, user_roles, profiles), two SECURITY DEFINER
helper functions (`has_role`, `get_user_student_id`), row-level-security
policies on each table, `updated_at` maintenance triggers, and a signup
provisioning trigger (`handle_new_user`).

This file gives a shallow embedding of that schema and of the database
operations it constrains, and proves/refutes the specification claims.

Modelling conventions:
* UUIDs are `Nat`; `TIMESTAMP` values are `Nat` (an abstract clock; each
  mutating operation takes the current time `now` as a parameter, standing
  for SQL `now()`).
* A nullable SQL column is an `Option`; SQL equality `a = b` on nullable
  values is `sqlEq` (NULL compares as not-true against everything,
  including NULL).
* Each table is a list of rows; the database state carries the four public
  tables plus the ids of `auth.users` (the external auth table that
  `user_id` columns reference).
* A mutating statement is a function `... -> DBState -> Except DBError DBState`.
  A statement is a single transaction: returning `.error` means the whole
  statement had no effect (the caller keeps the pre-state), which models
  per-statement atomicity and rollback.
* Row-level security: an INSERT whose `WITH CHECK` predicate fails raises an
  error; an UPDATE/DELETE whose `USING` predicate filters a row out simply
  does not see that row (zero rows affected, no error) — this is PostgreSQL
  RLS semantics.
* Referential actions (`ON DELETE SET NULL`) are performed as ordinary
  updates that bypass RLS but do fire the row-level `BEFORE UPDATE`
  triggers of the referencing table — documented PostgreSQL behaviour.
-/

namespace EduManager

/-- SQL: `CREATE TYPE public.app_role AS ENUM ('admin', 'student')`. -/
inductive AppRole where
  | admin
  | student
deriving DecidableEq, BEq, Repr

/-- SQL: `CREATE TABLE public.courses` — id, course_name, course_code (UNIQUE),
course_duration (NOT NULL DEFAULT 1), created_at, updated_at. -/
structure Course where
  id : Nat
  course_name : String
  course_code : String
  course_duration : Int
  created_at : Nat
  updated_at : Nat
deriving DecidableEq, Repr

/-- SQL: `CREATE TABLE public.students` — id, name, email (UNIQUE),
course_id (nullable, REFERENCES courses ON DELETE SET NULL),
user_id (nullable, REFERENCES auth.users ON DELETE CASCADE; note: NOT
declared UNIQUE in the schema), created_at, updated_at. -/
structure Student where
  id : Nat
  name : String
  email : String
  course_id : Option Nat
  user_id : Option Nat
  created_at : Nat
  updated_at : Nat
deriving DecidableEq, Repr

/-- SQL: `CREATE TABLE public.user_roles` — id, user_id (NOT NULL, REFERENCES
auth.users), role (NOT NULL DEFAULT 'student'), created_at, with
`UNIQUE(user_id, role)`. -/
structure UserRole where
  id : Nat
  user_id : Nat
  role : AppRole
  created_at : Nat
deriving DecidableEq, Repr

/-- SQL: `CREATE TABLE public.profiles` — id, user_id (NOT NULL, REFERENCES
auth.users, UNIQUE), username (nullable), created_at, updated_at. -/
structure Profile where
  id : Nat
  user_id : Nat
  username : Option String
  created_at : Nat
  updated_at : Nat
deriving DecidableEq, Repr

/-- The database state: the four public tables of the migration plus the ids
present in the external `auth.users` table that the `user_id` foreign keys
reference. -/
structure DBState where
  authUsers : List Nat
  courses : List Course
  students : List Student
  userRoles : List UserRole
  profiles : List Profile
deriving DecidableEq, Repr

/-- Error kinds a single SQL statement can raise. PostgreSQL distinguishes
these by SQLSTATE: a unique-constraint violation (23505, message
"duplicate key value violates unique constraint ...") is a distinct error
kind from an RLS rejection (42501) or a foreign-key violation (23503). -/
inductive DBError where
  | uniqueViolation
  | rlsViolation
  | fkViolation
deriving DecidableEq, Repr

instance {ε α : Type} [DecidableEq ε] [DecidableEq α] : DecidableEq (Except ε α) := fun a b =>
  match a, b with
  | .ok x, .ok y =>
      if h : x = y then isTrue (congrArg Except.ok h)
      else isFalse (fun hh => h (Except.ok.inj hh))
  | .error x, .error y =>
      if h : x = y then isTrue (congrArg Except.error h)
      else isFalse (fun hh => h (Except.error.inj hh))
  | .ok _, .error _ => isFalse (fun hh => Except.noConfusion hh)
  | .error _, .ok _ => isFalse (fun hh => Except.noConfusion hh)

/-- SQL equality on nullable values: `a = b` is true iff both operands are
non-NULL and equal (NULL = anything is not true, including NULL = NULL). -/
def sqlEq : Option Nat → Option Nat → Bool
  | some a, some b => a == b
  | _, _ => false

/-- SQL `has_role(_user_id, _role)`:
`SELECT EXISTS (SELECT 1 FROM public.user_roles WHERE user_id = _user_id AND role = _role)`.
SECURITY DEFINER: reads `user_roles` unfiltered by RLS. The argument is the
per-request `auth.uid()`, which is NULL (`none`) for an absent identity. -/
def has_role (db : DBState) (uid : Option Nat) (r : AppRole) : Bool :=
  db.userRoles.any (fun row => sqlEq (some row.user_id) uid && row.role == r)

/-- SQL `get_user_student_id(_user_id)`:
`SELECT id FROM public.students WHERE user_id = _user_id LIMIT 1`.
SECURITY DEFINER: reads `students` unfiltered by RLS. `LIMIT 1` on a query
without ORDER BY: we take the first matching row of the table. -/
def get_user_student_id (db : DBState) (uid : Option Nat) : Option Nat :=
  ((db.students.filter (fun s => sqlEq s.user_id uid)).head?).map (fun s => s.id)

/-- The rows of `students` a SELECT by identity `uid` returns, per the two
permissive (OR-combined) SELECT policies:
"Admins can view all students" — `USING (public.has_role(auth.uid(), 'admin'))`
"Students can view own profile" — `USING (user_id = auth.uid())`. -/
def visibleStudents (db : DBState) (uid : Option Nat) : List Student :=
  db.students.filter (fun s => has_role db uid .admin || sqlEq s.user_id uid)

/-- INSERT payload for `courses`. `course_duration` is `none` when the field
is omitted, in which case the column default `DEFAULT 1` applies. `id`,
`created_at`, `updated_at` always come from their column defaults. -/
structure CourseInsert where
  course_name : String
  course_code : String
  course_duration : Option Int
deriving DecidableEq, Repr

/-- UPDATE payload for `courses`: each field is `none` when absent from the
SET list. `updated_at` may be supplied by the caller, but the trigger
overwrites it (see `touchCourse`). -/
structure CourseUpdate where
  course_name : Option String
  course_code : Option String
  course_duration : Option Int
  updated_at : Option Nat
deriving DecidableEq, Repr

/-- INSERT payload for `students`. -/
structure StudentInsert where
  name : String
  email : String
  course_id : Option Nat
  user_id : Option Nat
deriving DecidableEq, Repr

/-- UPDATE payload for `students`: outer `none` = column absent from the SET
list; `course_id`/`user_id` may be set to NULL (`some none`). -/
structure StudentUpdate where
  name : Option String
  email : Option String
  course_id : Option (Option Nat)
  user_id : Option (Option Nat)
  updated_at : Option Nat
deriving DecidableEq, Repr

/-- UPDATE payload for `profiles`. -/
structure ProfileUpdate where
  username : Option (Option String)
  updated_at : Option Nat
deriving DecidableEq, Repr

/-- Trigger `update_courses_updated_at` (BEFORE UPDATE ON courses FOR EACH
ROW): `update_updated_at_column` sets `NEW.updated_at = now()`. -/
def touchCourse (now : Nat) (c : Course) : Course :=
  { c with updated_at := now }

/-- Trigger `update_students_updated_at` (BEFORE UPDATE ON students FOR EACH
ROW): `update_updated_at_column` sets `NEW.updated_at = now()`. It also
fires on the implicit UPDATE performed by the `ON DELETE SET NULL`
referential action of the `course_id` foreign key. -/
def touchStudent (now : Nat) (s : Student) : Student :=
  { s with updated_at := now }

/-- Trigger `update_profiles_updated_at` (BEFORE UPDATE ON profiles FOR EACH
ROW): `update_updated_at_column` sets `NEW.updated_at = now()`. -/
def touchProfile (now : Nat) (p : Profile) : Profile :=
  { p with updated_at := now }

/-- `true` iff two distinct positions of the list carry the same key — the
condition under which a UNIQUE index on that key raises 23505 after a
multi-row write. -/
def hasDupBy {α β : Type} [BEq β] (key : α → β) : List α → Bool
  | [] => false
  | x :: xs => xs.any (fun y => key y == key x) || hasDupBy key xs

/-- Foreign key `students.course_id REFERENCES public.courses(id)`:
NULL is allowed; a non-NULL value must match an existing course id. -/
def fkCourse (db : DBState) : Option Nat → Bool
  | none => true
  | some c => db.courses.any (fun r => r.id == c)

/-- Foreign key `user_id REFERENCES auth.users(id)`:
NULL is allowed; a non-NULL value must match an existing auth user id. -/
def fkUser (db : DBState) : Option Nat → Bool
  | none => true
  | some u => db.authUsers.any (fun r => r == u)

/-- `INSERT INTO courses` by identity `uid`.
Policy "Admins can insert courses": `WITH CHECK (public.has_role(auth.uid(), 'admin'))`
— a failing check raises an RLS error. The UNIQUE constraint on
`course_code` rejects a code already present. `course_duration` falls back
to the column default `1` when omitted; `id` is the fresh generated UUID;
`created_at`/`updated_at` default to `now()`. -/
def dbInsertCourse (now : Nat) (uid : Option Nat) (freshId : Nat)
    (p : CourseInsert) (db : DBState) : Except DBError DBState :=
  if has_role db uid .admin then
    if db.courses.any (fun c => c.course_code == p.course_code) then
      .error .uniqueViolation
    else
      .ok { db with courses :=
        ⟨freshId, p.course_name, p.course_code, p.course_duration.getD 1, now, now⟩
          :: db.courses }
  else .error .rlsViolation

/-- Apply the SET list of a course UPDATE to a row (before triggers run). -/
def applyCourseSet (p : CourseUpdate) (c : Course) : Course :=
  { c with
    course_name := p.course_name.getD c.course_name
    course_code := p.course_code.getD c.course_code
    course_duration := p.course_duration.getD c.course_duration
    updated_at := p.updated_at.getD c.updated_at }

/-- `UPDATE courses SET ... WHERE id = tid` by identity `uid`.
Policy "Admins can update courses": `USING (public.has_role(auth.uid(), 'admin'))`
— rows failing the predicate are invisible to the update (zero rows
affected, no error). Each updated row passes through the BEFORE UPDATE
trigger (`touchCourse`). The UNIQUE index on `course_code` then rejects the
statement if two rows end up with the same code. -/
def updatedCourses (now : Nat) (uid : Option Nat) (tid : Nat)
    (p : CourseUpdate) (db : DBState) : List Course :=
  db.courses.map (fun c =>
    if c.id == tid && has_role db uid .admin then touchCourse now (applyCourseSet p c)
    else c)

def dbUpdateCourse (now : Nat) (uid : Option Nat) (tid : Nat)
    (p : CourseUpdate) (db : DBState) : Except DBError DBState :=
  if hasDupBy Course.course_code (updatedCourses now uid tid p db) then
    .error .uniqueViolation
  else .ok { db with courses := updatedCourses now uid tid p db }

/-- `DELETE FROM courses WHERE id = cid` by identity `uid`.
Policy "Admins can delete courses": `USING (public.has_role(auth.uid(), 'admin'))`
— rows failing the predicate are invisible (zero rows affected, no error).
The `ON DELETE SET NULL` action of `students.course_id` then updates every
student referencing a deleted course: that implicit update bypasses RLS but
fires the students' BEFORE UPDATE trigger (`touchStudent`). -/
def deletedCourses (uid : Option Nat) (cid : Nat) (db : DBState) : List Course :=
  db.courses.filter (fun c => c.id == cid && has_role db uid .admin)

def dbDeleteCourse (now : Nat) (uid : Option Nat) (cid : Nat)
    (db : DBState) : Except DBError DBState :=
  .ok { db with
    courses := db.courses.filter (fun c => !(c.id == cid && has_role db uid .admin))
    students := db.students.map (fun s =>
      if (deletedCourses uid cid db).any (fun c => sqlEq (some c.id) s.course_id) then
        touchStudent now { s with course_id := none }
      else s) }

/-- `INSERT INTO students` by identity `uid`.
Policy "Admins can insert students": `WITH CHECK (public.has_role(auth.uid(), 'admin'))`.
The UNIQUE constraint on `email` rejects a duplicate email; the two foreign
keys reject dangling references. Note the schema places NO uniqueness
constraint on `students.user_id`. -/
def dbInsertStudent (now : Nat) (uid : Option Nat) (freshId : Nat)
    (p : StudentInsert) (db : DBState) : Except DBError DBState :=
  if has_role db uid .admin then
    if db.students.any (fun s => s.email == p.email) then .error .uniqueViolation
    else if !(fkCourse db p.course_id) then .error .fkViolation
    else if !(fkUser db p.user_id) then .error .fkViolation
    else
      .ok { db with students :=
        ⟨freshId, p.name, p.email, p.course_id, p.user_id, now, now⟩ :: db.students }
  else .error .rlsViolation

/-- Apply the SET list of a student UPDATE to a row (before triggers run). -/
def applyStudentSet (p : StudentUpdate) (s : Student) : Student :=
  { s with
    name := p.name.getD s.name
    email := p.email.getD s.email
    course_id := p.course_id.getD s.course_id
    user_id := p.user_id.getD s.user_id
    updated_at := p.updated_at.getD s.updated_at }

/-- Foreign-key admissibility of the values a student UPDATE payload sets. -/
def fkStudentSetOk (db : DBState) (p : StudentUpdate) : Bool :=
  (match p.course_id with
    | none => true
    | some v => fkCourse db v) &&
  (match p.user_id with
    | none => true
    | some v => fkUser db v)

/-- `UPDATE students SET ... WHERE id = tid` by identity `uid`.
Policy "Admins can update students": `USING (public.has_role(auth.uid(), 'admin'))`
— non-matching rows are invisible (zero rows affected, no error). Updated
rows pass through the BEFORE UPDATE trigger (`touchStudent`); the UNIQUE
index on `email` and the foreign keys are then enforced on the result. -/
def updatedStudents (now : Nat) (uid : Option Nat) (tid : Nat)
    (p : StudentUpdate) (db : DBState) : List Student :=
  db.students.map (fun s =>
    if s.id == tid && has_role db uid .admin then touchStudent now (applyStudentSet p s)
    else s)

def dbUpdateStudent (now : Nat) (uid : Option Nat) (tid : Nat)
    (p : StudentUpdate) (db : DBState) : Except DBError DBState :=
  if hasDupBy Student.email (updatedStudents now uid tid p db) then
    .error .uniqueViolation
  else if (db.students.any fun s => s.id == tid && has_role db uid .admin)
      && !(fkStudentSetOk db p) then
    .error .fkViolation
  else .ok { db with students := updatedStudents now uid tid p db }

/-- Apply the SET list of a profile UPDATE to a row (before triggers run). -/
def applyProfileSet (p : ProfileUpdate) (pr : Profile) : Profile :=
  { pr with
    username := p.username.getD pr.username
    updated_at := p.updated_at.getD pr.updated_at }

/-- `UPDATE profiles SET ... WHERE id = tid` by identity `uid`.
Policy "Users can update own profile": `USING (user_id = auth.uid())` —
non-matching rows are invisible (zero rows affected, no error). Updated
rows pass through the BEFORE UPDATE trigger (`touchProfile`). -/
def updatedProfiles (now : Nat) (uid : Option Nat) (tid : Nat)
    (p : ProfileUpdate) (db : DBState) : List Profile :=
  db.profiles.map (fun pr =>
    if pr.id == tid && sqlEq (some pr.user_id) uid then
      touchProfile now (applyProfileSet p pr)
    else pr)

def dbUpdateProfile (now : Nat) (uid : Option Nat) (tid : Nat)
    (p : ProfileUpdate) (db : DBState) : Except DBError DBState :=
  .ok { db with profiles := updatedProfiles now uid tid p db }

/-- Trigger `on_auth_user_created` body, `handle_new_user` (SECURITY
DEFINER): `INSERT INTO public.profiles (user_id, username) VALUES (NEW.id,
NEW.raw_user_meta_data ->> 'username')` then `INSERT INTO public.user_roles
(user_id, role) VALUES (NEW.id, 'student')`. Both inserts run inside the
transaction of the triggering `auth.users` insert, so any failure aborts
the whole unit (modelled by `Except`: an `.error` result leaves the caller
with the unchanged pre-state). The profile insert is checked against the
UNIQUE constraint on `profiles.user_id`, the role insert against
`UNIQUE(user_id, role)`. `pid`/`rid` are the fresh generated row ids. -/
def handle_new_user (now : Nat) (pid rid : Nat) (newId : Nat)
    (username : Option String) (db : DBState) : Except DBError DBState :=
  if db.profiles.any (fun p => p.user_id == newId) then .error .uniqueViolation
  else if db.userRoles.any (fun r => r.user_id == newId && r.role == AppRole.student) then
    .error .uniqueViolation
  else
    .ok { db with
      profiles := ⟨pid, newId, username, now, now⟩ :: db.profiles
      userRoles := ⟨rid, newId, .student, now⟩ :: db.userRoles }

/-- A signup: the external auth collaborator inserts a new row into
`auth.users` (primary-key unique), and the AFTER INSERT trigger
`on_auth_user_created` runs `handle_new_user` in the same transaction. -/
def signup (now : Nat) (pid rid : Nat) (newId : Nat) (username : Option String)
    (db : DBState) : Except DBError DBState :=
  if db.authUsers.any (fun u => u == newId) then .error .uniqueViolation
  else handle_new_user now pid rid newId username { db with authUsers := newId :: db.authUsers }

/-- JavaScript `String.prototype.toUpperCase()`: uppercase every character. -/
def strUpper (s : String) : String := ⟨s.data.map Char.toUpper⟩

/-- JavaScript `String.prototype.trim()`: strip whitespace from both ends. -/
def strTrim (s : String) : String :=
  ⟨((s.data.dropWhile Char.isWhitespace).reverse.dropWhile Char.isWhitespace).reverse⟩

/-- Client-side normalisation of the course form (`Students.tsx`,
course dialog `handleSubmit`): `course_name: formData.course_name.trim()`,
`course_code: formData.course_code.trim().toUpperCase()`. -/
def clientCourseInsert (name code : String) (dur : Option Int) : CourseInsert :=
  ⟨strTrim name, strUpper (strTrim code), dur⟩

/-- Client-side normalisation of the course form on the edit path: the same
payload sent as an UPDATE SET list (all three fields present). -/
def clientCourseUpdate (name code : String) (dur : Int) : CourseUpdate :=
  ⟨some (strTrim name), some (strUpper (strTrim code)), some dur, none⟩

/-- Client-side normalisation of the student form (`Students.tsx`, student
`handleSubmit`): `name: formData.name.trim()`, `email: formData.email.trim()`,
`course_id: formData.course_id || null`; `user_id` is never supplied. -/
def clientStudentInsert (name email : String) (cid : Option Nat) : StudentInsert :=
  ⟨strTrim name, strTrim email, cid, none⟩

/-- The same student payload sent as an UPDATE SET list on the edit path. -/
def clientStudentUpdate (name email : String) (cid : Option Nat) : StudentUpdate :=
  ⟨some (strTrim name), some (strTrim email), some cid, none, none⟩

/-- The constraints the database engine itself enforces on every stored
state (primary keys, UNIQUE constraints, NOT NULL, foreign keys), exactly
as declared by the migration. Every state the live database can hold
satisfies this predicate; note it does NOT constrain `students.user_id` to
be unique, because the schema declares no such constraint. -/
def ValidState (db : DBState) : Prop :=
  db.authUsers.Nodup ∧
  (db.courses.map Course.id).Nodup ∧
  (db.courses.map Course.course_code).Nodup ∧
  (db.students.map Student.id).Nodup ∧
  (db.students.map Student.email).Nodup ∧
  (db.userRoles.map UserRole.id).Nodup ∧
  (db.userRoles.map (fun r => (r.user_id, r.role))).Nodup ∧
  (db.profiles.map Profile.id).Nodup ∧
  (db.profiles.map Profile.user_id).Nodup ∧
  (∀ s ∈ db.students, fkCourse db s.course_id = true) ∧
  (∀ s ∈ db.students, fkUser db s.user_id = true) ∧
  (∀ r ∈ db.userRoles, r.user_id ∈ db.authUsers) ∧
  (∀ p ∈ db.profiles, p.user_id ∈ db.authUsers)

instance : DecidablePred ValidState := fun db => by
  unfold ValidState
  infer_instance

/-! ### Example states used by witnesses and counterexamples

`dbSeed`: auth users 1 and 2; user 1 is an admin; one student row claimed by
user 2. `dbSeedAfter`: the state after the admin inserts a second student
row also claimed by user 2. `dbWithCourse`: one admin, one course, one
student enrolled in it. All are valid per the schema constraints. -/

def dbSeed : DBState :=
  ⟨[1, 2], [], [⟨100, "A", "a@x", none, some 2, 0, 0⟩], [⟨50, 1, .admin, 0⟩], []⟩

def dbSeedAfter : DBState :=
  ⟨[1, 2], [],
    [⟨101, "B", "b@x", none, some 2, 1, 1⟩, ⟨100, "A", "a@x", none, some 2, 0, 0⟩],
    [⟨50, 1, .admin, 0⟩], []⟩

def dbWithCourse : DBState :=
  ⟨[1], [⟨10, "Math", "M1", 3, 0, 0⟩], [⟨100, "A", "a@x", some 10, none, 0, 0⟩],
    [⟨50, 1, .admin, 0⟩], []⟩

/-! ### Helper lemmas -/

instance : LawfulBEq AppRole where
  eq_of_beq := by
    intro a b h
    cases a <;> cases b <;> first | rfl | exact Bool.noConfusion h
  rfl := by
    intro a
    cases a <;> rfl

@[simp]
lemma sqlEq_none_right (x : Option Nat) : sqlEq x none = false := by
  cases x <;> rfl

@[simp]
lemma sqlEq_none_left (x : Option Nat) : sqlEq none x = false := by
  cases x <;> rfl

lemma sqlEq_some_right (x : Option Nat) (u : Nat) :
    sqlEq x (some u) = (x == some u) := by
  cases x <;> rfl

lemma sqlEq_some_left_iff (a : Nat) (uid : Option Nat) :
    sqlEq (some a) uid = true ↔ uid = some a := by
  cases uid with
  | none =>
      rw [sqlEq_none_right]
      constructor
      · intro h
        exact Bool.noConfusion h
      · intro h
        exact Option.noConfusion h
  | some b =>
      show (a == b) = true ↔ some b = some a
      rw [beq_iff_eq]
      constructor
      · intro h
        rw [h]
      · intro h
        injection h with h'
        exact h'.symm

lemma sqlEq_iff (x uid : Option Nat) :
    sqlEq x uid = true ↔ ∃ u, uid = some u ∧ x = some u := by
  cases x with
  | none =>
      rw [sqlEq_none_left]
      constructor
      · intro h
        exact Bool.noConfusion h
      · rintro ⟨u, _, hu⟩
        exact Option.noConfusion hu
  | some a =>
      rw [sqlEq_some_left_iff]
      constructor
      · intro h
        exact ⟨a, h, rfl⟩
      · rintro ⟨u, hu1, hu2⟩
        injection hu2 with h2
        rw [hu1, h2]

lemma has_role_iff (db : DBState) (uid : Option Nat) (r : AppRole) :
    has_role db uid r = true ↔
      ∃ row ∈ db.userRoles, uid = some row.user_id ∧ row.role = r := by
  unfold has_role
  rw [List.any_eq_true]
  constructor
  · rintro ⟨row, hmem, hrow⟩
    rw [Bool.and_eq_true, sqlEq_some_left_iff, beq_iff_eq] at hrow
    exact ⟨row, hmem, hrow.1, hrow.2⟩
  · rintro ⟨row, hmem, h1, h2⟩
    refine ⟨row, hmem, ?_⟩
    rw [Bool.and_eq_true, sqlEq_some_left_iff, beq_iff_eq]
    exact ⟨h1, h2⟩

lemma hasDupBy_of_two {α β : Type} [BEq β] [LawfulBEq β] (key : α → β)
    (l : List α) (x y : α) (hx : x ∈ l) (hy : y ∈ l) (hne : x ≠ y)
    (hkey : key x = key y) : hasDupBy key l = true := by
  induction l with
  | nil => cases hx
  | cons a t ih =>
    unfold hasDupBy
    rw [Bool.or_eq_true]
    rcases List.mem_cons.mp hx with rfl | hx'
    · left
      rw [List.any_eq_true]
      have hy' : y ∈ t := by
        rcases List.mem_cons.mp hy with h' | h'
        · exact absurd h'.symm hne
        · exact h'
      exact ⟨y, hy', by rw [beq_iff_eq]; exact hkey.symm⟩
    · rcases List.mem_cons.mp hy with rfl | hy'
      · left
        rw [List.any_eq_true]
        exact ⟨x, hx', by rw [beq_iff_eq]; exact hkey⟩
      · right
        exact ih hx' hy'

/-! ### Claim theorems -/

/-- C5: for every identity `I` (including an absent identity) and role `r`,
`has_role I r` returns true iff a role row `(I, r)` exists; it is a total
boolean function, returning false (never an error) when `I` is absent
(NULL) or has no matching row; in particular an identity with no admin role
row is not an admin. -/
theorem C5_has_role_correct (db : DBState) (uid : Option Nat) (r : AppRole) :
    (has_role db uid r = true ↔
      ∃ row ∈ db.userRoles, uid = some row.user_id ∧ row.role = r) ∧
    has_role db none r = false ∧
    ((∀ row ∈ db.userRoles, uid = some row.user_id → row.role ≠ AppRole.admin) →
      has_role db uid AppRole.admin = false) := by
  refine ⟨has_role_iff db uid r, ?_, ?_⟩
  · unfold has_role
    simp
  · intro h
    rw [Bool.eq_false_iff]
    intro htrue
    obtain ⟨row, hmem, heq, hrole⟩ := (has_role_iff db uid .admin).mp htrue
    exact h row hmem heq hrole

/-- Witness for C5 at a concrete state: identity 2 holds no admin role row in
`dbSeed`, so `has_role` returns false for it. -/
theorem C5_has_role_correct_witness : has_role dbSeed (some 2) AppRole.admin = false :=
  (C5_has_role_correct dbSeed (some 2) AppRole.admin).2.2 (by decide)

/-- C6: `get_user_student_id I` returns at most one student id (its result
type is a single optional id); whenever it returns an id, that id belongs
to a student row whose `user_id` equals `I`; and it returns absent when `I`
owns no student row. -/
theorem C6_get_user_student_id_correct (db : DBState) (uid : Option Nat) :
    (∀ i, get_user_student_id db uid = some i →
      ∃ s ∈ db.students, s.id = i ∧ ∃ u, uid = some u ∧ s.user_id = some u) ∧
    ((∀ s ∈ db.students, sqlEq s.user_id uid = false) →
      get_user_student_id db uid = none) := by
  constructor
  · intro i h
    unfold get_user_student_id at h
    rw [Option.map_eq_some'] at h
    obtain ⟨s, hhead, hid⟩ := h
    have hmem : s ∈ db.students.filter (fun s => sqlEq s.user_id uid) := by
      cases hf : db.students.filter (fun s => sqlEq s.user_id uid) with
      | nil => rw [hf] at hhead; cases hhead
      | cons a t =>
          rw [hf] at hhead
          have h' : a = s := by injection hhead
          rw [← h']
          exact List.mem_cons_self a t
    obtain ⟨hmem', hpred⟩ := List.mem_filter.mp hmem
    obtain ⟨u, hu, hsu⟩ := (sqlEq_iff s.user_id uid).mp hpred
    exact ⟨s, hmem', hid, u, hu, hsu⟩
  · intro h
    unfold get_user_student_id
    have : db.students.filter (fun s => sqlEq s.user_id uid) = [] := by
      rw [List.filter_eq_nil_iff]
      intro s hs
      simp [h s hs]
    rw [this]
    rfl

/-- Witness for C6 at a concrete state: identity 3 owns no student row in
`dbSeed`, so the resolver returns absent. -/
theorem C6_get_user_student_id_correct_witness :
    get_user_student_id dbSeed (some 3) = none :=
  (C6_get_user_student_id_correct dbSeed (some 3)).2 (by decide)

/-- C1, counterexample to "zero or one rows": the schema puts no UNIQUE
constraint on `students.user_id`, so from the valid state `dbSeed` (one
student row claimed by identity 2) an admin INSERT of a second row with
`user_id = 2` succeeds, and a SELECT by the non-admin identity 2 then
returns two rows. -/
theorem C1_counterexample :
    ValidState dbSeed ∧
    dbInsertStudent 1 (some 1) 101 ⟨"B", "b@x", none, some 2⟩ dbSeed = .ok dbSeedAfter ∧
    has_role dbSeedAfter (some 2) AppRole.admin = false ∧
    (visibleStudents dbSeedAfter (some 2)).length = 2 := by
  decide

/-- C1 as amended: for every identity `I` without the admin role, a SELECT
on `students` returns exactly the rows whose `user_id` equals `I` — never a
row owned by a different identity or by no identity. (The original claim's
"zero or one rows" does not hold: nothing makes `students.user_id` unique,
see `C1_counterexample`.) -/
theorem C1_select_filters_by_owner (db : DBState) (u : Nat)
    (h : has_role db (some u) AppRole.admin = false) :
    visibleStudents db (some u) =
      db.students.filter (fun s => s.user_id == some u) ∧
    ∀ s ∈ visibleStudents db (some u), s.user_id = some u := by
  have hfilter : visibleStudents db (some u) =
      db.students.filter (fun s => s.user_id == some u) := by
    unfold visibleStudents
    apply List.filter_congr
    intro s _
    rw [h, Bool.false_or, sqlEq_some_right]
  refine ⟨hfilter, ?_⟩
  intro s hs
  rw [hfilter] at hs
  have := (List.mem_filter.mp hs).2
  exact beq_iff_eq.mp this

/-- Witness for C1 as amended, at the concrete state `dbSeedAfter`. -/
theorem C1_select_filters_by_owner_witness :
    visibleStudents dbSeedAfter (some 2) =
      dbSeedAfter.students.filter (fun s => s.user_id == some 2) ∧
    ∀ s ∈ visibleStudents dbSeedAfter (some 2), s.user_id = some 2 :=
  C1_select_filters_by_owner dbSeedAfter 2 (by decide)

/-- C2: for every identity without the admin role (including the absent
identity), an INSERT into `courses` is rejected by the `WITH CHECK` of
"Admins can insert courses" regardless of the payload, and an UPDATE or
DELETE affects no row (the `USING` predicates of "Admins can update/delete
courses" hide every row), leaving the database — in particular the courses
table — unchanged. -/
theorem C2_nonadmin_course_writes_refused (db : DBState) (now : Nat)
    (uid : Option Nat) (fid tid : Nat) (pi : CourseInsert) (pu : CourseUpdate)
    (h : has_role db uid AppRole.admin = false) :
    dbInsertCourse now uid fid pi db = .error DBError.rlsViolation ∧
    (∀ db', dbUpdateCourse now uid tid pu db = .ok db' → db' = db) ∧
    (∀ db', dbDeleteCourse now uid tid db = .ok db' → db' = db) := by
  refine ⟨?_, ?_, ?_⟩
  · unfold dbInsertCourse
    rw [h]
    rfl
  · intro db' hok
    unfold dbUpdateCourse updatedCourses at hok
    simp only [h, Bool.and_false] at hok
    simp at hok
    by_cases hd : hasDupBy Course.course_code db.courses = true
    · rw [if_pos hd] at hok
      exact Except.noConfusion hok
    · rw [if_neg hd] at hok
      injection hok with h'
      exact h'.symm
  · intro db' hok
    unfold dbDeleteCourse deletedCourses at hok
    simp only [h, Bool.and_false] at hok
    simp at hok
    exact hok.symm

/-- Witness for C2: the non-admin identity 2 cannot insert a course into
`dbSeed`. -/
theorem C2_nonadmin_course_writes_refused_witness :
    dbInsertCourse 5 (some 2) 7 ⟨"N", "C", none⟩ dbSeed = .error DBError.rlsViolation :=
  (C2_nonadmin_course_writes_refused dbSeed 5 (some 2) 7 8 ⟨"N", "C", none⟩
    ⟨none, none, none, none⟩ (by decide)).1

/-- C3, counterexample: from the valid state `dbSeed`, in which identity 2
already owns the student row with id 100, the admin INSERT of a second
student row with `user_id = 2` succeeds — the schema declares no uniqueness
constraint on `students.user_id` — leaving a reachable state in which two
rows share the non-absent owner 2. -/
theorem C3_counterexample :
    ValidState dbSeed ∧
    (dbSeed.students.filter (fun s => s.user_id == some 2)).length = 1 ∧
    dbInsertStudent 1 (some 1) 101 ⟨"B", "b@x", none, some 2⟩ dbSeed = .ok dbSeedAfter ∧
    (dbSeedAfter.students.filter (fun s => s.user_id == some 2)).length = 2 := by
  decide

/-- C3 as amended: the schema does NOT make an authentication identity own
at most one student record. An admin insert whose payload reuses an
already-owning `user_id` is accepted whenever its email is fresh and its
references exist — nothing checks ownership — and it increases the number
of rows owned by that identity by one. (Per-identity uniqueness is only
enforced for `profiles.user_id`; `students.email` is globally unique.) -/
theorem C3_second_owned_row_insertable (db : DBState) (now fid : Nat)
    (uid : Option Nat) (p : StudentInsert)
    (hAdmin : has_role db uid AppRole.admin = true)
    (hEmail : ∀ s ∈ db.students, s.email ≠ p.email)
    (hFk1 : fkCourse db p.course_id = true)
    (hFk2 : fkUser db p.user_id = true) :
    dbInsertStudent now uid fid p db =
      .ok { db with students :=
        ⟨fid, p.name, p.email, p.course_id, p.user_id, now, now⟩ :: db.students } ∧
    ∀ u, p.user_id = some u →
      ((⟨fid, p.name, p.email, p.course_id, p.user_id, now, now⟩ :: db.students).filter
          (fun s => s.user_id == some u)).length =
        (db.students.filter (fun s => s.user_id == some u)).length + 1 := by
  constructor
  · have hany : (db.students.any fun s => s.email == p.email) = false := by
      rw [List.any_eq_false]
      intro s hs hb
      exact hEmail s hs (beq_iff_eq.mp hb)
    unfold dbInsertStudent
    rw [hAdmin, hany, hFk1, hFk2]
    simp
  · intro u hu
    rw [List.filter_cons]
    have hhead : ((⟨fid, p.name, p.email, p.course_id, p.user_id, now, now⟩ :
        Student).user_id == some u) = true := by
      show (p.user_id == some u) = true
      rw [hu]
      exact beq_self_eq_true _
    rw [hhead]
    simp

/-- Witness for C3 as amended: a third student row owned by identity 2 is
inserted into `dbSeedAfter`, which already holds two rows owned by 2. -/
theorem C3_second_owned_row_insertable_witness :
    dbInsertStudent 2 (some 1) 102 ⟨"C", "c@x", none, some 2⟩ dbSeedAfter =
      .ok { dbSeedAfter with students :=
        ⟨102, "C", "c@x", none, some 2, 2, 2⟩ :: dbSeedAfter.students } :=
  (C3_second_owned_row_insertable dbSeedAfter 2 102 (some 1) ⟨"C", "c@x", none, some 2⟩
    (by decide) (by decide) (by decide) (by decide)).1

/-- C4: provisioning a new identity `u1` with signup username "alice"
inserts exactly one profile row (user `u1`, username "alice") and exactly
one role row (user `u1`, role student). The two inserts run inside the
transaction of the `auth.users` insert that fired the trigger, so they are
one atomic unit: in this model an `.error` result yields no new state at
all (the caller keeps the pre-state), so either both rows appear or
neither. A second provisioning invocation for the same identity fails on
the `profiles.user_id` UNIQUE constraint, and — returning `.error` — leaves
the state with still exactly one profile row and one role row for `u1`. -/
theorem C4_signup_provisioning (db : DBState) (now pid rid u1 : Nat)
    (hP : ∀ p ∈ db.profiles, p.user_id ≠ u1)
    (hR : ∀ r ∈ db.userRoles, r.user_id ≠ u1) :
    ∃ db', handle_new_user now pid rid u1 (some "alice") db = .ok db' ∧
      db'.profiles.filter (fun p => p.user_id == u1) =
        [⟨pid, u1, some "alice", now, now⟩] ∧
      db'.userRoles.filter (fun r => r.user_id == u1) =
        [⟨rid, u1, AppRole.student, now⟩] ∧
      ∀ now2 pid2 rid2 un2,
        handle_new_user now2 pid2 rid2 u1 un2 db' = .error DBError.uniqueViolation := by
  have hPany : (db.profiles.any fun p => p.user_id == u1) = false := by
    rw [List.any_eq_false]
    intro p hp hb
    exact hP p hp (beq_iff_eq.mp hb)
  have hRany : (db.userRoles.any fun r => r.user_id == u1 && r.role == AppRole.student)
      = false := by
    rw [List.any_eq_false]
    intro r hr hb
    rw [Bool.and_eq_true] at hb
    exact hR r hr (beq_iff_eq.mp hb.1)
  have hPtail : db.profiles.filter (fun p => p.user_id == u1) = [] := by
    rw [List.filter_eq_nil_iff]
    intro p hp hb
    exact hP p hp (beq_iff_eq.mp hb)
  have hRtail : db.userRoles.filter (fun r => r.user_id == u1) = [] := by
    rw [List.filter_eq_nil_iff]
    intro r hr hb
    exact hR r hr (beq_iff_eq.mp hb)
  refine ⟨{ db with
      profiles := ⟨pid, u1, some "alice", now, now⟩ :: db.profiles
      userRoles := ⟨rid, u1, AppRole.student, now⟩ :: db.userRoles }, ?_, ?_, ?_, ?_⟩
  · unfold handle_new_user
    rw [hPany, hRany]
    simp
  · show (⟨pid, u1, some "alice", now, now⟩ :: db.profiles).filter
        (fun p => p.user_id == u1) = [⟨pid, u1, some "alice", now, now⟩]
    rw [List.filter_cons, hPtail]
    simp
  · show (⟨rid, u1, AppRole.student, now⟩ :: db.userRoles).filter
        (fun r => r.user_id == u1) = [⟨rid, u1, AppRole.student, now⟩]
    rw [List.filter_cons, hRtail]
    simp
  · intro now2 pid2 rid2 un2
    unfold handle_new_user
    have : ((⟨pid, u1, some "alice", now, now⟩ :: db.profiles).any
        fun p => p.user_id == u1) = true := by
      rw [List.any_cons]
      simp
    rw [show ({ db with
        profiles := ⟨pid, u1, some "alice", now, now⟩ :: db.profiles
        userRoles := ⟨rid, u1, AppRole.student, now⟩ :: db.userRoles } : DBState).profiles
      = ⟨pid, u1, some "alice", now, now⟩ :: db.profiles from rfl, this]
    simp

/-- Witness for C4: provisioning identity 9 on an empty database. -/
theorem C4_signup_provisioning_witness :
    ∃ db', handle_new_user 3 7 8 9 (some "alice") ⟨[9], [], [], [], []⟩ = .ok db' ∧
      db'.profiles.filter (fun p => p.user_id == 9) = [⟨7, 9, some "alice", 3, 3⟩] ∧
      db'.userRoles.filter (fun r => r.user_id == 9) = [⟨8, 9, AppRole.student, 3⟩] ∧
      ∀ now2 pid2 rid2 un2,
        handle_new_user now2 pid2 rid2 9 un2 db' = .error DBError.uniqueViolation :=
  C4_signup_provisioning ⟨[9], [], [], [], []⟩ 3 7 8 9 (by decide) (by decide)

lemma dbUpdateCourse_dup_error (now : Nat) (uid : Option Nat) (tid : Nat)
    (p : CourseUpdate) (db : DBState)
    (hdup : hasDupBy Course.course_code (updatedCourses now uid tid p db) = true) :
    dbUpdateCourse now uid tid p db = .error DBError.uniqueViolation := by
  unfold dbUpdateCourse
  rw [if_pos hdup]

lemma dbUpdateStudent_dup_error (now : Nat) (uid : Option Nat) (tid : Nat)
    (p : StudentUpdate) (db : DBState)
    (hdup : hasDupBy Student.email (updatedStudents now uid tid p db) = true) :
    dbUpdateStudent now uid tid p db = .error DBError.uniqueViolation := by
  unfold dbUpdateStudent
  rw [if_pos hdup]

/-- C7: a write that would violate the `course_code` or `email` UNIQUE
constraint is rejected with the distinguishable unique-violation error
kind (PostgreSQL 23505, "duplicate key ..."), not with a generic error, for
course INSERT and UPDATE and for student INSERT and UPDATE. Course codes
are matched case-insensitively because the client uppercases a code before
sending it, so a new code that equals a stored (uppercase-normal) code up
to case collides with it exactly. The writer is an admin (only admins pass
the write policies; a non-admin would be stopped by RLS first). -/
theorem C7_unique_violations_distinct (db : DBState) (now : Nat) (uid : Option Nat)
    (hAdmin : has_role db uid AppRole.admin = true) :
    (∀ (fid : Nat) (name code : String) (dur : Option Int) (c : Course),
      c ∈ db.courses →
      strUpper c.course_code = c.course_code →
      strUpper (strTrim code) = strUpper c.course_code →
      dbInsertCourse now uid fid (clientCourseInsert name code dur) db =
        .error DBError.uniqueViolation) ∧
    (∀ (tid : Nat) (name code : String) (dur : Int) (t c : Course),
      t ∈ db.courses → c ∈ db.courses → t.id = tid → c.id ≠ tid →
      strUpper c.course_code = c.course_code →
      strUpper (strTrim code) = strUpper c.course_code →
      dbUpdateCourse now uid tid (clientCourseUpdate name code dur) db =
        .error DBError.uniqueViolation) ∧
    (∀ (fid : Nat) (name email : String) (cid : Option Nat) (s : Student),
      s ∈ db.students →
      s.email = strTrim email →
      dbInsertStudent now uid fid (clientStudentInsert name email cid) db =
        .error DBError.uniqueViolation) ∧
    (∀ (tid : Nat) (name email : String) (cid : Option Nat) (t s : Student),
      t ∈ db.students → s ∈ db.students → t.id = tid → s.id ≠ tid →
      s.email = strTrim email →
      dbUpdateStudent now uid tid (clientStudentUpdate name email cid) db =
        .error DBError.uniqueViolation) ∧
    DBError.uniqueViolation ≠ DBError.rlsViolation := by
  refine ⟨?_, ?_, ?_, ?_, by decide⟩
  · intro fid name code dur c hc hnorm hci
    have hany : (db.courses.any
        fun x => x.course_code == (clientCourseInsert name code dur).course_code)
        = true := by
      rw [List.any_eq_true]
      refine ⟨c, hc, ?_⟩
      show (c.course_code == strUpper (strTrim code)) = true
      rw [hci, hnorm]
      exact beq_self_eq_true _
    unfold dbInsertCourse
    rw [hAdmin, hany]
    simp
  · intro tid name code dur t c ht hc htid hcid hnorm hci
    apply dbUpdateCourse_dup_error
    unfold updatedCourses
    set f := fun x : Course =>
      if x.id == tid && has_role db uid AppRole.admin then
        touchCourse now (applyCourseSet (clientCourseUpdate name code dur) x)
      else x with hfdef
    have hft : f t = touchCourse now (applyCourseSet (clientCourseUpdate name code dur) t) := by
      simp only [hfdef]
      rw [htid, hAdmin]
      simp
    have hfc : f c = c := by
      have hne : (c.id == tid) = false := beq_eq_false_iff_ne.mpr hcid
      simp only [hfdef]
      rw [hne]
      simp
    have hne2 : f t ≠ f c := by
      intro he
      have h3 := congrArg Course.id he
      rw [hft, hfc] at h3
      have h4 : t.id = c.id := h3
      exact hcid (by rw [← h4]; exact htid)
    have hkey : Course.course_code (f t) = Course.course_code (f c) := by
      rw [hft, hfc]
      show strUpper (strTrim code) = c.course_code
      rw [hci, hnorm]
    exact hasDupBy_of_two Course.course_code (db.courses.map f) (f t) (f c)
      (List.mem_map_of_mem f ht) (List.mem_map_of_mem f hc) hne2 hkey
  · intro fid name email cid s hs hse
    have hany : (db.students.any
        fun x => x.email == (clientStudentInsert name email cid).email) = true := by
      rw [List.any_eq_true]
      refine ⟨s, hs, ?_⟩
      show (s.email == strTrim email) = true
      rw [hse]
      exact beq_self_eq_true _
    unfold dbInsertStudent
    rw [hAdmin, hany]
    simp
  · intro tid name email cid t s ht hs htid hsid hse
    apply dbUpdateStudent_dup_error
    unfold updatedStudents
    set f := fun x : Student =>
      if x.id == tid && has_role db uid AppRole.admin then
        touchStudent now (applyStudentSet (clientStudentUpdate name email cid) x)
      else x with hfdef
    have hft : f t = touchStudent now (applyStudentSet (clientStudentUpdate name email cid) t) := by
      simp only [hfdef]
      rw [htid, hAdmin]
      simp
    have hfs : f s = s := by
      have hne : (s.id == tid) = false := beq_eq_false_iff_ne.mpr hsid
      simp only [hfdef]
      rw [hne]
      simp
    have hne2 : f t ≠ f s := by
      intro he
      have h3 := congrArg Student.id he
      rw [hft, hfs] at h3
      have h4 : t.id = s.id := h3
      exact hsid (by rw [← h4]; exact htid)
    have hkey : Student.email (f t) = Student.email (f s) := by
      rw [hft, hfs]
      show strTrim email = s.email
      exact hse.symm
    exact hasDupBy_of_two Student.email (db.students.map f) (f t) (f s)
      (List.mem_map_of_mem f ht) (List.mem_map_of_mem f hs) hne2 hkey

/-- Witness for C7: inserting a course whose form code " m1 " collides, up
to trimming and case, with the stored code "M1" in `dbWithCourse` is
rejected as a unique violation. -/
theorem C7_unique_violations_distinct_witness :
    dbInsertCourse 2 (some 1) 77 (clientCourseInsert "Calc" " m1 " (some 6))
      dbWithCourse = .error DBError.uniqueViolation :=
  (C7_unique_violations_distinct dbWithCourse 2 (some 1) (by decide)).1
    77 "Calc" " m1 " (some 6) ⟨10, "Math", "M1", 3, 0, 0⟩
    (by decide) (by decide) (by decide)

/-- The state after `dbDeleteCourse 5 (some 1) 10 dbWithCourse`: the course
is gone, the enrolled student remains with `course_id` cleared — and with
`updated_at` advanced to 5 by the BEFORE UPDATE trigger that the
`ON DELETE SET NULL` referential action fires. -/
def dbWithCourseDeleted : DBState :=
  ⟨[1], [], [⟨100, "A", "a@x", none, none, 0, 5⟩], [⟨50, 1, .admin, 0⟩], []⟩

/-- C8, counterexample to "every other field of those student rows ...
unchanged": the `ON DELETE SET NULL` cascade is an ordinary UPDATE of the
referencing student rows, so it fires `update_students_updated_at`; the
affected student's `updated_at` field changes (here from 0 to 5). -/
theorem C8_counterexample :
    ValidState dbWithCourse ∧
    dbDeleteCourse 5 (some 1) 10 dbWithCourse = .ok dbWithCourseDeleted ∧
    dbWithCourse.students.map Student.id = [100] ∧
    dbWithCourseDeleted.students.map Student.id = [100] ∧
    dbWithCourse.students.map Student.updated_at = [0] ∧
    dbWithCourseDeleted.students.map Student.updated_at = [5] ∧
    ¬ dbWithCourseDeleted.students.map Student.updated_at =
        dbWithCourse.students.map Student.updated_at := by
  decide

/-- C8 as amended: an admin deleting course `C` removes exactly the course
rows with id `C`; every student referencing `C` keeps its row with its
course reference set to absent and its `updated_at` refreshed to the
current time by the update trigger fired by the `ON DELETE SET NULL`
cascade (all its other fields unchanged, as the row update map shows);
students not referencing `C` are fully unchanged; no student row is
deleted (the student count is preserved). -/
theorem C8_delete_course_cascade (db : DBState) (now : Nat) (uid : Option Nat)
    (cid : Nat) (hAdmin : has_role db uid AppRole.admin = true)
    (hMem : ∃ c ∈ db.courses, c.id = cid) :
    dbDeleteCourse now uid cid db =
      .ok { db with
        courses := db.courses.filter (fun c => !(c.id == cid))
        students := db.students.map (fun s =>
          if s.course_id == some cid then { s with course_id := none, updated_at := now }
          else s) } ∧
    (db.students.map (fun s =>
        if s.course_id == some cid then { s with course_id := none, updated_at := now }
        else s)).length = db.students.length := by
  constructor
  · unfold dbDeleteCourse deletedCourses
    have hc1 : ∀ c : Course,
        (c.id == cid && has_role db uid AppRole.admin) = (c.id == cid) := by
      intro c
      rw [hAdmin, Bool.and_true]
    simp only [hc1]
    have hmap : ∀ s ∈ db.students,
        (if (db.courses.filter (fun c => c.id == cid)).any
            (fun c => sqlEq (some c.id) s.course_id) then
          touchStudent now { s with course_id := none }
        else s)
          = (if s.course_id == some cid then
              { s with course_id := none, updated_at := now }
            else s) := by
      intro s _
      by_cases hsc : s.course_id = some cid
      · have hany : ((db.courses.filter (fun c => c.id == cid)).any
            (fun c => sqlEq (some c.id) s.course_id)) = true := by
          rw [List.any_eq_true]
          obtain ⟨c, hcmem, hcid2⟩ := hMem
          refine ⟨c, ?_, ?_⟩
          · rw [List.mem_filter]
            exact ⟨hcmem, by rw [hcid2]; exact beq_self_eq_true _⟩
          · rw [hcid2, hsc]
            show (cid == cid) = true
            exact beq_self_eq_true _
        have hbeq : (s.course_id == some cid) = true := by
          rw [hsc]
          exact beq_self_eq_true _
        rw [hany, hbeq]
        simp
        rfl
      · have hany : ((db.courses.filter (fun c => c.id == cid)).any
            (fun c => sqlEq (some c.id) s.course_id)) = false := by
          rw [List.any_eq_false]
          intro c hcf hb
          rw [List.mem_filter] at hcf
          have hcc : c.id = cid := beq_iff_eq.mp hcf.2
          rw [hcc, sqlEq_some_left_iff] at hb
          exact hsc hb
        have hbeq : (s.course_id == some cid) = false := beq_eq_false_iff_ne.mpr hsc
        rw [hany, hbeq]
        simp
    rw [List.map_congr_left hmap]
  · exact List.length_map _ _

/-- Witness for C8 as amended, at the concrete state `dbWithCourse`. -/
theorem C8_delete_course_cascade_witness :
    dbDeleteCourse 5 (some 1) 10 dbWithCourse =
      .ok { dbWithCourse with
        courses := dbWithCourse.courses.filter (fun c => !(c.id == 10))
        students := dbWithCourse.students.map (fun s =>
          if s.course_id == some 10 then { s with course_id := none, updated_at := 5 }
          else s) } :=
  (C8_delete_course_cascade dbWithCourse 5 (some 1) 10 (by decide)
    ⟨⟨10, "Math", "M1", 3, 0, 0⟩, by decide, by decide⟩).1

/-- C9: whenever an UPDATE statement on `courses`, `students`, or
`profiles` succeeds, every row it actually wrote (the row with the
targeted id, when the writer passes that table's row policy) carries
`updated_at = now` afterwards — the BEFORE UPDATE triggers overwrite
whatever `updated_at` value the caller supplied in the payload, which is
quantified here over all payloads including ones carrying an explicit
`updated_at`. -/
theorem C9_update_overwrites_updated_at (db : DBState) (now : Nat)
    (uid : Option Nat) (tid : Nat) (pc : CourseUpdate) (ps : StudentUpdate)
    (pp : ProfileUpdate) :
    (∀ db', dbUpdateCourse now uid tid pc db = .ok db' →
      has_role db uid AppRole.admin = true →
      ∀ c ∈ db'.courses, c.id = tid → c.updated_at = now) ∧
    (∀ db', dbUpdateStudent now uid tid ps db = .ok db' →
      has_role db uid AppRole.admin = true →
      ∀ s ∈ db'.students, s.id = tid → s.updated_at = now) ∧
    (∀ db', dbUpdateProfile now uid tid pp db = .ok db' →
      ∀ pr ∈ db'.profiles, pr.id = tid → sqlEq (some pr.user_id) uid = true →
        pr.updated_at = now) := by
  refine ⟨?_, ?_, ?_⟩
  · intro db' hok hAdm c hcmem hcid
    unfold dbUpdateCourse at hok
    by_cases hd : hasDupBy Course.course_code (updatedCourses now uid tid pc db) = true
    · rw [if_pos hd] at hok
      exact Except.noConfusion hok
    · rw [if_neg hd] at hok
      injection hok with h'
      have hm : c ∈ updatedCourses now uid tid pc db := by
        rw [← h'] at hcmem
        exact hcmem
      unfold updatedCourses at hm
      obtain ⟨a, _, hfa⟩ := List.mem_map.mp hm
      by_cases hcond : (a.id == tid && has_role db uid AppRole.admin) = true
      · rw [if_pos hcond] at hfa
        rw [← hfa]
        rfl
      · rw [if_neg hcond] at hfa
        exfalso
        apply hcond
        rw [Bool.and_eq_true]
        refine ⟨?_, hAdm⟩
        rw [hfa, hcid]
        exact beq_self_eq_true _
  · intro db' hok hAdm s hsmem hsid
    unfold dbUpdateStudent at hok
    by_cases hd : hasDupBy Student.email (updatedStudents now uid tid ps db) = true
    · rw [if_pos hd] at hok
      exact Except.noConfusion hok
    · rw [if_neg hd] at hok
      by_cases hfk : ((db.students.any fun x => x.id == tid && has_role db uid AppRole.admin)
          && !(fkStudentSetOk db ps)) = true
      · rw [if_pos hfk] at hok
        exact Except.noConfusion hok
      · rw [if_neg hfk] at hok
        injection hok with h'
        have hm : s ∈ updatedStudents now uid tid ps db := by
          rw [← h'] at hsmem
          exact hsmem
        unfold updatedStudents at hm
        obtain ⟨a, _, hfa⟩ := List.mem_map.mp hm
        by_cases hcond : (a.id == tid && has_role db uid AppRole.admin) = true
        · rw [if_pos hcond] at hfa
          rw [← hfa]
          rfl
        · rw [if_neg hcond] at hfa
          exfalso
          apply hcond
          rw [Bool.and_eq_true]
          refine ⟨?_, hAdm⟩
          rw [hfa, hsid]
          exact beq_self_eq_true _
  · intro db' hok pr hpmem hpid hpuid
    unfold dbUpdateProfile at hok
    injection hok with h'
    have hm : pr ∈ updatedProfiles now uid tid pp db := by
      rw [← h'] at hpmem
      exact hpmem
    unfold updatedProfiles at hm
    obtain ⟨a, _, hfa⟩ := List.mem_map.mp hm
    by_cases hcond : (a.id == tid && sqlEq (some a.user_id) uid) = true
    · rw [if_pos hcond] at hfa
      rw [← hfa]
      rfl
    · rw [if_neg hcond] at hfa
      exfalso
      apply hcond
      rw [Bool.and_eq_true]
      refine ⟨?_, ?_⟩
      · rw [hfa, hpid]
        exact beq_self_eq_true _
      · rw [hfa]
        exact hpuid

/-- Witness for C9: an admin update of course 10 in `dbWithCourse` that
even supplies `updated_at := 777` still leaves the row with
`updated_at = 9`, the statement time. -/
theorem C9_update_overwrites_updated_at_witness :
    Course.updated_at ⟨10, "X", "M1", 3, 0, 9⟩ = 9 :=
  (C9_update_overwrites_updated_at dbWithCourse 9 (some 1) 10
      ⟨some "X", none, none, some 777⟩ ⟨none, none, none, none, none⟩ ⟨none, none⟩).1
    ⟨[1], [⟨10, "X", "M1", 3, 0, 9⟩], [⟨100, "A", "a@x", some 10, none, 0, 0⟩],
      [⟨50, 1, .admin, 0⟩], []⟩
    (by decide) (by decide) ⟨10, "X", "M1", 3, 0, 9⟩ (by decide) (by decide)

/-- C10: an INSERT into `courses` that omits `course_duration` is accepted
(given an admin writer and a fresh code) and stores the schema default
`DEFAULT 1` for the duration; it is not rejected. -/
theorem C10_duration_defaults_to_one (db : DBState) (now : Nat)
    (uid : Option Nat) (fid : Nat) (p : CourseInsert)
    (hAdmin : has_role db uid AppRole.admin = true)
    (hCode : ∀ c ∈ db.courses, c.course_code ≠ p.course_code)
    (hdur : p.course_duration = none) :
    dbInsertCourse now uid fid p db =
      .ok { db with courses :=
        ⟨fid, p.course_name, p.course_code, 1, now, now⟩ :: db.courses } := by
  have hany : (db.courses.any fun c => c.course_code == p.course_code) = false := by
    rw [List.any_eq_false]
    intro c hc hb
    exact hCode c hc (beq_iff_eq.mp hb)
  unfold dbInsertCourse
  rw [hAdmin, hany, hdur]
  simp

/-- Witness for C10: a duration-less insert into `dbWithCourse` stores
duration 1. -/
theorem C10_duration_defaults_to_one_witness :
    dbInsertCourse 2 (some 1) 77 ⟨"Calculus", "CS", none⟩ dbWithCourse =
      .ok { dbWithCourse with courses :=
        ⟨77, "Calculus", "CS", 1, 2, 2⟩ :: dbWithCourse.courses } :=
  C10_duration_defaults_to_one dbWithCourse 2 (some 1) 77 ⟨"Calculus", "CS", none⟩
    (by decide) (by decide) (by decide)

end EduManager
